import Mathlib

/-!
Verification development for the htmlisp repository.

The repository's `src/main.rs` is the I/O glue: `main`, `run`, `read_write`,
`watch`, `ProgramError` and its `Display` impl.  The modules `parser.rs`
(lexer, parser, `Node`/`Html` document model, compact and pretty renderers)
and `config.rs` (`Config` and argument parsing) are declared by `main.rs`
but are not part of the available sources, so those parts are modelled from
the specification (each such definition carries a doc comment saying so).

Effectful Rust code is embedded as pure Lean functions over explicit
environments: every fallible I/O operation's outcome is a field of an
environment record (`RwEnv`, `EventEnv`), and the filesystem actions a run
performs are returned as an explicit trace (`FsAction`), so that ordering
and absence of effects are provable.
-/

namespace Htmlisp

/-- Modelled from the spec: the `Node` sum type of the missing `parser.rs`
(§3 DATA MODEL): an element with tag name, ordered attribute pairs and
ordered children, or a raw text segment. -/
inductive Node where
  | element (tag : String) (attributes : List (String × String)) (children : List Node)
  | text (s : String)

/-- Modelled from the spec: a `Document` is an ordered sequence of zero or
more top-level nodes (§3). -/
abbrev Document := List Node

/-- Modelled from the spec: token shapes recognised by the fused lexer of the
missing `parser.rs` (§4.1): open paren, close paren, quoted text literal,
bare identifier. -/
inductive Token where
  | lparen
  | rparen
  | quoted (s : String)
  | ident (s : String)
  deriving DecidableEq

/-- Modelled from the spec: scan a quoted literal after the opening quote,
up to the next `"`. Reaching end of input first is a failure (§4.1). -/
def scanQuoted : List Char → Option (List Char × List Char)
  | [] => none
  | c :: rest =>
    if c = '"' then some ([], rest)
    else
      match scanQuoted rest with
      | some (s, r) => some (c :: s, r)
      | none => none

/-- Modelled from the spec: a bare-identifier character is any character
that is not whitespace, a parenthesis, or a quote delimiter (§4.1). -/
def identChar (c : Char) : Bool :=
  !c.isWhitespace && c ≠ '(' && c ≠ ')' && c ≠ '"'

/-- Modelled from the spec: take the maximal run of identifier characters. -/
def scanIdent : List Char → List Char × List Char
  | [] => ([], [])
  | c :: rest =>
    if identChar c then
      let (s, r) := scanIdent rest
      (c :: s, r)
    else ([], c :: rest)

/-- Modelled from the spec: the fused lexer pass (§4.1), with explicit fuel
(one unit per emitted token or skipped character; the fuel is always
sufficient when it exceeds the input length). Returns `none` on an
unterminated quoted literal. -/
def tokenizeF : Nat → List Char → Option (List Token)
  | 0, _ => none
  | _, [] => some []
  | fuel + 1, c :: rest =>
    if c.isWhitespace then tokenizeF fuel rest
    else if c = '(' then (tokenizeF fuel rest).map (Token.lparen :: ·)
    else if c = ')' then (tokenizeF fuel rest).map (Token.rparen :: ·)
    else if c = '"' then
      match scanQuoted rest with
      | none => none
      | some (s, r) => (tokenizeF fuel r).map (Token.quoted ⟨s⟩ :: ·)
    else
      match scanIdent (c :: rest) with
      | (s, r) => (tokenizeF fuel r).map (Token.ident ⟨s⟩ :: ·)

/-- Modelled from the spec: tokenize a whole character list. -/
def tokenize (cs : List Char) : Option (List Token) :=
  tokenizeF (cs.length + 1) cs

mutual

/-- Modelled from the spec: parse a parenthesized form after its `(`
(§4.2): the first token must be a bare identifier (the tag name), then
attributes and children up to the matching `)`. -/
def parseForm (fuel : Nat) (toks : List Token) : Option (Node × List Token) :=
  match fuel with
  | 0 => none
  | fuel + 1 =>
    match toks with
    | Token.ident tag :: rest =>
      match parseInside fuel rest with
      | some (attrs, children, rest2) => some (Node.element tag attrs children, rest2)
      | none => none
    | _ => none

/-- Modelled from the spec: parse the interior of a form (§4.2): a bare
identifier followed by a quoted literal is always an attribute; a quoted
literal or a bare identifier alone is a text child; a nested form is an
element child; the matching `)` ends the form; end of input first is a
parse failure. -/
def parseInside (fuel : Nat) (toks : List Token) :
    Option (List (String × String) × List Node × List Token) :=
  match fuel with
  | 0 => none
  | fuel + 1 =>
    match toks with
    | [] => none
    | Token.rparen :: rest => some ([], [], rest)
    | Token.ident k :: Token.quoted v :: rest =>
      match parseInside fuel rest with
      | some (attrs, children, rest2) => some ((k, v) :: attrs, children, rest2)
      | none => none
    | Token.ident s :: rest =>
      match parseInside fuel rest with
      | some (attrs, children, rest2) => some (attrs, Node.text s :: children, rest2)
      | none => none
    | Token.quoted s :: rest =>
      match parseInside fuel rest with
      | some (attrs, children, rest2) => some (attrs, Node.text s :: children, rest2)
      | none => none
    | Token.lparen :: rest =>
      match parseForm fuel rest with
      | some (child, rest2) =>
        match parseInside fuel rest2 with
        | some (attrs, children, rest3) => some (attrs, child :: children, rest3)
        | none => none
      | none => none

end

/-- Modelled from the spec: parse zero or more top-level expressions (§4.2):
each is a quoted text literal or a parenthesized form; any other token at
top level (a stray `)` or a bare identifier) is a parse failure. -/
def parseTop (fuel : Nat) (toks : List Token) : Option (List Node) :=
  match fuel with
  | 0 => none
  | fuel + 1 =>
    match toks with
    | [] => some []
    | Token.quoted s :: rest => (parseTop fuel rest).map (Node.text s :: ·)
    | Token.lparen :: rest =>
      match parseForm fuel rest with
      | some (n, rest2) => (parseTop fuel rest2).map (n :: ·)
      | none => none
    | _ => none

/-- Modelled from the spec: the parser entry point of the missing
`parser.rs` (§4.2): `parse(source_text) -> Option<Document>`; `none` means
the source did not conform to the grammar, and no partial tree is ever
returned (the only success value is a whole `Document`). -/
def parse (source : String) : Option Document :=
  match tokenize source.data with
  | none => none
  | some toks => parseTop (2 * toks.length + 2) toks

/-- Modelled from the spec: HTML-escape one text character (§4.3): `&`,
`<`, `>` are never emitted raw. -/
def escTextChar (c : Char) : String :=
  if c = '&' then "&amp;"
  else if c = '<' then "&lt;"
  else if c = '>' then "&gt;"
  else String.singleton c

/-- Modelled from the spec: HTML-escape one attribute-value character
(§4.3): additionally escapes `"`. -/
def escAttrChar (c : Char) : String :=
  if c = '"' then "&quot;" else escTextChar c

/-- Modelled from the spec: escape a text segment for HTML output. -/
def escapeText (s : String) : String :=
  String.join (s.data.map escTextChar)

/-- Modelled from the spec: escape an attribute value for HTML output. -/
def escapeAttr (s : String) : String :=
  String.join (s.data.map escAttrChar)

/-- Modelled from the spec: render attributes space-separated in stored
order as ` key="value"` (§4.3). -/
def renderAttrs (attrs : List (String × String)) : String :=
  attrs.foldl (fun acc kv => acc ++ " " ++ kv.1 ++ "=\"" ++ escapeAttr kv.2 ++ "\"") ""

mutual

/-- Modelled from the spec: compact render of one node (§4.3): no inserted
whitespace, `<tag attrs>children</tag>` for elements, escaped text. -/
def Node.compact : Node → String
  | Node.text s => escapeText s
  | Node.element tag attrs children =>
    "<" ++ tag ++ renderAttrs attrs ++ ">" ++ compactList children ++ "</" ++ tag ++ ">"

/-- Modelled from the spec: compact render of a node sequence, nothing
between siblings. -/
def compactList : List Node → String
  | [] => ""
  | n :: rest => Node.compact n ++ compactList rest

end

/-- Modelled from the spec: indentation whitespace proportional to depth
(§4.3). -/
def indentAt (depth : Nat) : String :=
  String.join (List.replicate depth "    ")

mutual

/-- Modelled from the spec: pretty render of one node at a given depth
(§4.3): each element on its own line, children one level deeper, closing
tag aligned with the opening tag. -/
def Node.pretty : Node → Nat → String
  | Node.text s, depth => indentAt depth ++ escapeText s ++ "\n"
  | Node.element tag attrs children, depth =>
    indentAt depth ++ "<" ++ tag ++ renderAttrs attrs ++ ">\n"
      ++ prettyList children (depth + 1)
      ++ indentAt depth ++ "</" ++ tag ++ ">\n"

/-- Modelled from the spec: pretty render of a node sequence. -/
def prettyList : List Node → Nat → String
  | [], _ => ""
  | n :: rest, depth => Node.pretty n depth ++ prettyList rest depth

end

/-- Modelled from the spec: `render_compact(Document) -> String` (§6); in
the code this is the `Display` impl used by `write!("{}", html)`. -/
def Document.displayCompact (d : Document) : String := compactList d

/-- Modelled from the spec: `render_pretty(Document, start_depth) -> String`
(§6); in the code this is `html.pretty_print(depth)`. -/
def Document.pretty_print (d : Document) (depth : Nat) : String := prettyList d depth

/-- The five error variants of `ProgramError` in `main.rs` (lines 40-46).
`io::Error` payloads are modelled as their message strings. -/
inductive ProgramError where
  | ReadInput (e : String)
  | ParseInput
  | CreateOutputFile (e : String)
  | WriteOutput (e : String)
  | WatchDirIncorrect (p : String)
  deriving DecidableEq

/-- The `Display` impl for `ProgramError` in `main.rs` (lines 48-65),
character for character. -/
def ProgramError.display : ProgramError → String
  | .ReadInput e => "Failed to read input file\n(" ++ e ++ ")"
  | .ParseInput => "Failed to parse input file"
  | .CreateOutputFile e => "Failed to create output file\n(" ++ e ++ ")"
  | .WriteOutput e => "Failed to write to output file:\n(" ++ e ++ ")"
  | .WatchDirIncorrect p => "'" ++ p ++ "' is not a directory"

/-- Constructor discriminator for `ProgramError`, used to state that
messages of distinct variants are pairwise distinct. -/
def ProgramError.ctorIdx : ProgramError → Nat
  | .ReadInput _ => 0
  | .ParseInput => 1
  | .CreateOutputFile _ => 2
  | .WriteOutput _ => 3
  | .WatchDirIncorrect _ => 4

/-- Modelled from the spec: the `Config` struct of the missing `config.rs`,
with the fields `main.rs` uses: `input_file`, `output_file`, `prettify`,
`watch`, `help`. -/
structure Config where
  input_file : String
  output_file : String
  prettify : Bool
  watch : String
  help : Bool
  deriving DecidableEq

/-! Path arithmetic: string-level models of the `std::path` operations
`main.rs` performs (`extension`, `set_extension`, `push`, `strip_prefix`,
`pop`), with `/` as separator. -/

/-- Split a character list on a separator character; like
`String.splitOn`, the empty input gives one empty segment. -/
def splitOnChar (sep : Char) : List Char → List (List Char)
  | [] => [[]]
  | c :: rest =>
    if c = sep then [] :: splitOnChar sep rest
    else
      match splitOnChar sep rest with
      | [] => [[c]]
      | h :: t => (c :: h) :: t

/-- Join strings with a separator character between consecutive entries. -/
def joinWith (sep : Char) : List String → String
  | [] => ""
  | [s] => s
  | s :: rest => s ++ String.singleton sep ++ joinWith sep rest

/-- Path components: the nonempty segments between `/` separators. -/
def pathComponents (p : String) : List String :=
  ((splitOnChar '/' p.data).filter (fun cs => cs ≠ [])).map (fun cs => (⟨cs⟩ : String))

/-- The file name of a path: its last component (empty for an empty path). -/
def fileNameOf (p : String) : String :=
  (pathComponents p).getLastD ""

/-- Rust `Path::extension`: the part of the file name after its last dot;
`none` when the file name has no dot, or when its only dot is the leading
character (hidden files like `.htmlisp` have no extension). -/
def pathExtension (p : String) : Option String :=
  match splitOnChar '.' (fileNameOf p).data with
  | [] => none
  | [_] => none
  | [[], _] => none
  | parts => some ⟨parts.getLastD []⟩

/-- Rust `PathBuf::set_extension`: drop the current extension (and its dot)
if any, then append a dot and the new extension. -/
def setExtension (p ext : String) : String :=
  match pathExtension p with
  | none => p ++ "." ++ ext
  | some e => (⟨p.data.take (p.data.length - (e.data.length + 1))⟩ : String) ++ "." ++ ext

/-- Rust `PathBuf::push` of a relative path onto a base. -/
def pathPush (base rel : String) : String :=
  match rel.data with
  | '/' :: _ => rel
  | _ =>
    match base.data with
    | [] => rel
    | bs => if bs.getLast? = some '/' then base ++ rel else base ++ "/" ++ rel

/-- Rust `Path::strip_prefix`: the remainder of `target` after removing the
leading components of `base`, component-wise; `none` when `base` is not a
component-wise prefix. -/
def pathRelativeTo (target base : String) : Option String :=
  let t := pathComponents target
  let b := pathComponents base
  if b.isPrefixOf t then some (joinWith '/' (t.drop b.length))
  else none

/-- Rust `PathBuf::pop` as used at `main.rs` lines 87-88: remove the final
component of the output path, leaving the directory part. -/
def parentDir (p : String) : String :=
  joinWith '/' (((splitOnChar '/' p.data).map (fun cs => (⟨cs⟩ : String))).dropLast)

/-- One filesystem action performed by `read_write`, in program order. -/
inductive FsAction where
  | readToString (path : String)
  | createDirAll (path : String)
  | createFile (path : String)
  | writeAll (path : String) (content : String)
  deriving DecidableEq

deriving instance DecidableEq for Except

/-- Environment for one `read_write` call: the outcome of each fallible
I/O operation it may attempt (`io::Error`s as message strings). -/
structure RwEnv where
  readResult : Except String String
  createDirResult : Except String Unit
  createFileResult : Except String Unit
  writeResult : Except String Unit
  deriving DecidableEq

/-- The rendered output `read_write` produces for a parsed document
(`main.rs` lines 93-97): the pretty render at start depth 0 when
`config.prettify` is set, the compact (`Display`) render otherwise. -/
def renderOf (cfg : Config) (doc : Document) : String :=
  if cfg.prettify then Document.pretty_print doc 0 else Document.displayCompact doc

/-- `read_write` from `main.rs` (lines 80-99), as a pure function of the
config and the I/O environment, returning its result together with the
trace of filesystem actions it performed, in order: read the input file,
parse it, create the missing directories of the output path, create the
output file, write the rendered HTML to it; each failure is mapped to its
`ProgramError` variant and stops the run. -/
def read_write (cfg : Config) (env : RwEnv) :
    Except ProgramError Unit × List FsAction :=
  let t0 := [FsAction.readToString cfg.input_file]
  match env.readResult with
  | .error e => (.error (ProgramError.ReadInput e), t0)
  | .ok input =>
    match parse input with
    | none => (.error ProgramError.ParseInput, t0)
    | some html =>
      let t1 := t0 ++ [FsAction.createDirAll (parentDir cfg.output_file)]
      match env.createDirResult with
      | .error e => (.error (ProgramError.CreateOutputFile e), t1)
      | .ok _ =>
        let t2 := t1 ++ [FsAction.createFile cfg.output_file]
        match env.createFileResult with
        | .error e => (.error (ProgramError.CreateOutputFile e), t2)
        | .ok _ =>
          let t3 := t2 ++ [FsAction.writeAll cfg.output_file (renderOf cfg html)]
          match env.writeResult with
          | .error e => (.error (ProgramError.WriteOutput e), t3)
          | .ok _ => (.ok (), t3)

/-! Filesystem content semantics for the action trace: file contents as an
association list keyed by path. `File::create` truncates an existing file
or creates a missing one; `write!` appends to the open handle. -/

/-- Filesystem contents: paths mapped to file contents. -/
def FsState := List (String × String)

/-- Look up a file's content. -/
def fileContent (fs : FsState) (p : String) : Option String :=
  (fs.find? (fun x => x.1 = p)).map (fun x => x.2)

/-- Set a file's content, replacing any previous entry for the path. -/
def setFile (fs : FsState) (p c : String) : FsState :=
  (p, c) :: fs.filter (fun x => x.1 ≠ p)

/-- Apply one action to the filesystem contents: reads and directory
creation do not change any file; `createFile` truncates or creates;
`writeAll` appends to the current content. -/
def applyAction (fs : FsState) : FsAction → FsState
  | .readToString _ => fs
  | .createDirAll _ => fs
  | .createFile p => setFile fs p ""
  | .writeAll p s => setFile fs p (((fileContent fs p).getD "") ++ s)

/-- Apply a trace of actions in order. -/
def applyActions (fs : FsState) (acts : List FsAction) : FsState :=
  acts.foldl applyAction fs

/-! The watch loop of `main.rs` (lines 101-174), one iteration per received
channel message, over explicit per-iteration environments. -/

/-- A received debounced event: a write event carrying the written file's
path, or any of the other `DebouncedEvent` variants, which the loop
ignores (`Ok(_) => {}`). -/
inductive DebouncedEvent where
  | write (path : String)
  | other
  deriving DecidableEq

/-- Environment for one loop iteration: the received message and the
outcomes of the fallible operations the iteration may attempt, in program
order: `canonicalize` of the watch directory, `canonicalize` of the written
file, `Config::new` (its error modelled as a message string), then the
`read_write` call. -/
structure EventEnv where
  recv : Except String DebouncedEvent
  canonWatchDir : Except String String
  canonWritten : Except String String
  configResult : Except String Config
  rw : RwEnv
  deriving DecidableEq

/-- What one iteration reports to the console: the success line with the
relative input path and the output path, or the error line with the failed
file's `ProgramError` and relative path (`main.rs` lines 148-158). -/
inductive Report where
  | success (rel out : String)
  | failure (e : ProgramError) (rel : String)
  deriving DecidableEq

/-- Outcome of one loop iteration. `skipped`: a non-write event, or a write
event filtered out by extension, with nothing done. `compiled`: the
iteration reached the `read_write` call, carrying the output path it was
given, its result, its action trace and the console report; the loop
continues. `exited1`: `process::exit(1)` (a channel receive error or a
`Config::new` error). `returnedErr`: `watch` returns this error (a `?` on a
failed `canonicalize`). `panicked`: the `.expect` on `strip_prefix`
failed. -/
inductive IterResult where
  | skipped
  | compiled (outPath : String) (r : Except ProgramError Unit)
      (acts : List FsAction) (report : Report)
  | exited1
  | returnedErr (e : ProgramError)
  | panicked
  deriving DecidableEq

/-- The config `watch` hands to `read_write` for one write event
(`main.rs` lines 138-141): the rebuilt config with its input file set to
the written file's path and its output file set to the computed output
path. -/
def eventConfig (cfg2 : Config) (p outPath : String) : Config :=
  { cfg2 with input_file := p, output_file := outPath }

/-- One iteration of the watch loop (`main.rs` lines 117-172): skip
non-write events; skip write events whose file extension is not
`htmlisp`; otherwise canonicalize the watch directory and the written path
(a failure of either is mapped to `ReadInput` and propagated out of `watch`
with `?`), take the written path relative to the watch directory (panic on
failure), build the output path by pushing the relative path onto
`output/` and setting the extension to `html`, rebuild the config
(`process::exit(1)` on failure), overwrite its input and output files, and
run `read_write`, reporting success or failure for that file. -/
def iterate (cfg : Config) (env : EventEnv) : IterResult :=
  match env.recv with
  | .error _ => .exited1
  | .ok DebouncedEvent.other => .skipped
  | .ok (DebouncedEvent.write p) =>
    if pathExtension p ≠ some "htmlisp" then .skipped
    else
      match env.canonWatchDir with
      | .error e => .returnedErr (ProgramError.ReadInput e)
      | .ok watchAbs =>
        match env.canonWritten with
        | .error e => .returnedErr (ProgramError.ReadInput e)
        | .ok writtenAbs =>
          match pathRelativeTo writtenAbs watchAbs with
          | none => .panicked
          | some rel =>
            let outPath := setExtension (pathPush "output/" rel) "html"
            match env.configResult with
            | .error _ => .exited1
            | .ok cfg2 =>
              match read_write (eventConfig cfg2 p outPath) env.rw with
              | (.ok _, acts) => .compiled outPath (.ok ()) acts (.success rel outPath)
              | (.error e, acts) => .compiled outPath (.error e) acts (.failure e rel)

/-- How a run of the watch loop over the supplied events ended. `running`:
every supplied event was consumed and the loop is still waiting for the
next one (the loop itself never returns normally). -/
inductive LoopEnd where
  | running
  | returnedErr (e : ProgramError)
  | exited1
  | panicked
  deriving DecidableEq

/-- The watch loop over a list of per-iteration environments: iterations
that skip or compile continue with the rest; a `returnedErr`, `exited1` or
`panicked` iteration ends the loop at once, leaving the remaining events
unprocessed. Returns how the loop ended and the trace of iteration
results. -/
def watchLoop (cfg : Config) : List EventEnv → LoopEnd × List IterResult
  | [] => (.running, [])
  | env :: rest =>
    match iterate cfg env with
    | .exited1 => (.exited1, [.exited1])
    | .returnedErr e => (.returnedErr e, [.returnedErr e])
    | .panicked => (.panicked, [.panicked])
    | r =>
      let (e, t) := watchLoop cfg rest
      (e, r :: t)

/-- `watch` from `main.rs` (lines 101-174): if the watch path is not a
directory, return `Err(WatchDirIncorrect(path))` at once, before the
watcher is registered and before any event is processed; otherwise set up
the watcher (`watcherOk` models the two `.unwrap()` calls on watcher
creation and registration, which panic on failure) and run the loop. -/
def watchRun (cfg : Config) (isDir watcherOk : Bool) (events : List EventEnv) :
    LoopEnd × List IterResult :=
  if isDir = false then (.returnedErr (ProgramError.WatchDirIncorrect cfg.watch), [])
  else if watcherOk = false then (.panicked, [])
  else watchLoop cfg events

/-! The entry point `main` and `run` (`main.rs` lines 18-38 and 67-78). -/

/-- Environment for a whole program run: the `read_write` environment for
the single-shot path, and the directory check, watcher setup and event
environments for the watch path. -/
structure MainEnv where
  rwEnv : RwEnv
  isDir : Bool
  watcherOk : Bool
  events : List EventEnv
  deriving DecidableEq

/-- Observable outcome of `main`: the success line printed with the
input-to-output mapping (process ends without an error status); an error
message printed to stderr followed by `process::exit(1)`; the help text
followed by `process::exit(0)`; the watch loop still running; or a panic
inside the watch loop. -/
inductive MainResult where
  | success (input_file output_file : String)
  | errorExit1 (msg : String)
  | helpExit0
  | watchRunning (trace : List IterResult)
  | panicked (trace : List IterResult)
  deriving DecidableEq

/-- `run` from `main.rs` (lines 67-78): print help and exit 0 when
`config.help` is set; run `watch` when `config.watch` is non-empty; run
`read_write` otherwise; on success return the input and output file
names. -/
def runOutcome (cfg : Config) (env : MainEnv) : MainResult :=
  if cfg.help then .helpExit0
  else if cfg.watch ≠ "" then
    match watchRun cfg env.isDir env.watcherOk env.events with
    | (.running, t) => .watchRunning t
    | (.returnedErr e, _) => .errorExit1 (ProgramError.display e)
    | (.exited1, _) => .errorExit1 ""
    | (.panicked, t) => .panicked t
  else
    match read_write cfg env.rwEnv with
    | (.ok _, _) => .success cfg.input_file cfg.output_file
    | (.error e, _) => .errorExit1 (ProgramError.display e)

/-- `main` from `main.rs` (lines 18-38): a `Config::new` failure prints the
config error and exits 1; otherwise the outcome of `run` decides between
the success line and an error line plus exit 1. -/
def mainOutcome (configResult : Except String Config) (env : MainEnv) : MainResult :=
  match configResult with
  | .error e => .errorExit1 e
  | .ok cfg => runOutcome cfg env

/-! Concrete fixtures used by witnesses and counterexamples. -/

/-- A well-formed HTMLisp source: one quoted text literal. -/
def srcGood : String := "\"hi\""

/-- A single-shot config: compile `in.htmlisp` to `out/x.html`, compact. -/
def cfgShot : Config := ⟨"in.htmlisp", "out/x.html", false, "", false⟩

/-- A watch-mode config over the directory `site`. -/
def cfgWatch : Config := ⟨"", "", false, "site", false⟩

/-- A `read_write` environment in which every I/O operation succeeds and
the input file contains `srcGood`. -/
def rwEnvOk : RwEnv := ⟨.ok srcGood, .ok (), .ok (), .ok ()⟩

/-- A `read_write` environment in which reading the input file fails. -/
def rwEnvReadErr : RwEnv := ⟨.error "boom", .ok (), .ok (), .ok ()⟩

/-- A watch iteration in which everything succeeds: a write event on
`site/sub/a.htmlisp`, both canonicalizations succeed, the config is
rebuilt, and `read_write` succeeds. -/
def envGood : EventEnv :=
  ⟨.ok (.write "site/sub/a.htmlisp"), .ok "/abs/site", .ok "/abs/site/sub/a.htmlisp",
   .ok cfgWatch, rwEnvOk⟩

/-- A watch iteration in which canonicalizing the written file's path
fails (for instance the file was deleted between the debounced event and
its processing). -/
def envBadCanon : EventEnv :=
  ⟨.ok (.write "site/sub/a.htmlisp"), .ok "/abs/site",
   .error "No such file or directory (os error 2)", .ok cfgWatch, rwEnvOk⟩

/-- A watch iteration in which processing reaches `read_write` and the
read of the written file fails there. -/
def envRwFail : EventEnv :=
  ⟨.ok (.write "site/sub/a.htmlisp"), .ok "/abs/site", .ok "/abs/site/sub/a.htmlisp",
   .ok cfgWatch, ⟨.error "denied", .ok (), .ok (), .ok ()⟩⟩

/-- A watch iteration with a write event on a file whose extension is not
`htmlisp`. -/
def envWrongExt : EventEnv :=
  ⟨.ok (.write "site/notes.txt"), .ok "/abs/site", .ok "/abs/site/notes.txt",
   .ok cfgWatch, rwEnvOk⟩

/-! Characterization lemmas for `read_write`. -/

theorem read_write_read_err (cfg : Config) (env : RwEnv) (e : String)
    (h : env.readResult = .error e) :
    read_write cfg env = (.error (ProgramError.ReadInput e), [.readToString cfg.input_file]) := by
  simp [read_write, h]

theorem read_write_parse_none (cfg : Config) (env : RwEnv) (input : String)
    (h1 : env.readResult = .ok input) (h2 : parse input = none) :
    read_write cfg env = (.error ProgramError.ParseInput, [.readToString cfg.input_file]) := by
  simp [read_write, h1, h2]

theorem read_write_parsed (cfg : Config) (env : RwEnv) (input : String) (doc : Document)
    (h1 : env.readResult = .ok input) (h2 : parse input = some doc) :
    (read_write cfg env).1 ≠ .error ProgramError.ParseInput ∧
      ∀ e, (read_write cfg env).1 ≠ .error (ProgramError.ReadInput e) := by
  simp only [read_write, h1, h2]
  cases env.createDirResult <;> cases env.createFileResult <;> cases env.writeResult <;> simp

theorem read_write_ok (cfg : Config) (env : RwEnv) (acts : List FsAction)
    (h : read_write cfg env = (.ok (), acts)) :
    ∃ input doc, env.readResult = .ok input ∧ parse input = some doc ∧
      acts = [.readToString cfg.input_file,
        .createDirAll (parentDir cfg.output_file),
        .createFile cfg.output_file,
        .writeAll cfg.output_file (renderOf cfg doc)] := by
  cases hr : env.readResult with
  | error e => rw [read_write_read_err cfg env e hr] at h; simp at h
  | ok input =>
    cases hp : parse input with
    | none => rw [read_write_parse_none cfg env input hr hp] at h; simp at h
    | some doc =>
      refine ⟨input, doc, rfl, hp, ?_⟩
      simp only [read_write, hr, hp] at h
      cases hc : env.createDirResult <;> rw [hc] at h <;>
        [skip; (cases hf : env.createFileResult <;> rw [hf] at h <;>
          [skip; (cases hw : env.writeResult <;> rw [hw] at h)])] <;>
        simp_all

theorem fileContent_setFile (fs : FsState) (p c : String) :
    fileContent (setFile fs p c) p = some c := by
  simp [fileContent, setFile, List.find?]

/-- C2: the parser entry point, applied to the full source text, returns
an optional `Document` — `some` exactly when the source conforms to the
grammar, `none` otherwise, and by its type it can only return a whole
document, never a partial tree — and the caller `read_write` fails with
`ParseInput` exactly when the input file was read successfully and the
parser returned `none`. -/
theorem C2_parse_none_maps_to_ParseInput (cfg : Config) (env : RwEnv) :
    (read_write cfg env).1 = .error ProgramError.ParseInput ↔
      ∃ input, env.readResult = .ok input ∧ parse input = none := by
  constructor
  · intro h
    cases hr : env.readResult with
    | error e => rw [read_write_read_err cfg env e hr] at h; simp at h
    | ok input =>
      cases hp : parse input with
      | none => exact ⟨input, rfl, hp⟩
      | some doc => exact absurd h (read_write_parsed cfg env input doc hr hp).1
  · rintro ⟨input, h1, h2⟩
    rw [read_write_parse_none cfg env input h1 h2]

/-- C3: every successful `read_write` run creates the parent directories of
the output path before creating the output file, then writes the rendered
HTML in full to the destination; applying the action trace to any starting
filesystem leaves the destination holding exactly the rendered output, so
an existing destination file is silently overwritten and a missing one is
created. -/
theorem C3_output_written (cfg : Config) (env : RwEnv) (acts : List FsAction)
    (h : read_write cfg env = (.ok (), acts)) :
    ∃ input doc, env.readResult = .ok input ∧ parse input = some doc ∧
      acts = [.readToString cfg.input_file,
        .createDirAll (parentDir cfg.output_file),
        .createFile cfg.output_file,
        .writeAll cfg.output_file (renderOf cfg doc)] ∧
      ∀ fs : FsState,
        fileContent (applyActions fs acts) cfg.output_file = some (renderOf cfg doc) := by
  obtain ⟨input, doc, h1, h2, h3⟩ := read_write_ok cfg env acts h
  refine ⟨input, doc, h1, h2, h3, ?_⟩
  intro fs
  subst h3
  simp [applyActions, applyAction, fileContent_setFile, fileContent, setFile, List.find?]

/-- Witness for C3 at a concrete successful run: compiling `in.htmlisp`
(contents `"hi"`) to `out/x.html` compactly. -/
theorem C3_witness :
    ∃ input doc, rwEnvOk.readResult = .ok input ∧ parse input = some doc ∧
      [FsAction.readToString "in.htmlisp", .createDirAll "out", .createFile "out/x.html",
        .writeAll "out/x.html" "hi"] =
        [.readToString cfgShot.input_file,
          .createDirAll (parentDir cfgShot.output_file),
          .createFile cfgShot.output_file,
          .writeAll cfgShot.output_file (renderOf cfgShot doc)] ∧
      ∀ fs : FsState,
        fileContent (applyActions fs
          [FsAction.readToString "in.htmlisp", .createDirAll "out", .createFile "out/x.html",
            .writeAll "out/x.html" "hi"]) cfgShot.output_file = some (renderOf cfgShot doc) :=
  C3_output_written cfgShot rwEnvOk
    [.readToString "in.htmlisp", .createDirAll "out", .createFile "out/x.html",
      .writeAll "out/x.html" "hi"] (by decide)

/-- C8: every successful `read_write` run performs exactly one write of the
output file, and what it writes is the pretty render at start depth 0 when
the prettify flag is set and the compact render otherwise; both renderers
are pure functions from the document to a string. -/
theorem C8_render_dispatch (cfg : Config) (env : RwEnv) (acts : List FsAction)
    (h : read_write cfg env = (.ok (), acts)) :
    ∃ input doc, env.readResult = .ok input ∧ parse input = some doc ∧
      acts.filter (fun a => match a with | FsAction.writeAll _ _ => true | _ => false) =
        [FsAction.writeAll cfg.output_file
          (if cfg.prettify then Document.pretty_print doc 0 else Document.displayCompact doc)] := by
  obtain ⟨input, doc, h1, h2, h3⟩ := read_write_ok cfg env acts h
  refine ⟨input, doc, h1, h2, ?_⟩
  subst h3
  simp [List.filter, renderOf]

/-- Witness for C8 at a concrete successful run. -/
theorem C8_witness :
    ∃ input doc, rwEnvOk.readResult = .ok input ∧ parse input = some doc ∧
      List.filter (fun a => match a with | FsAction.writeAll _ _ => true | _ => false)
        [FsAction.readToString "in.htmlisp", .createDirAll "out", .createFile "out/x.html",
          .writeAll "out/x.html" "hi"] =
        [FsAction.writeAll cfgShot.output_file
          (if cfgShot.prettify then Document.pretty_print doc 0
           else Document.displayCompact doc)] :=
  C8_render_dispatch cfgShot rwEnvOk
    [.readToString "in.htmlisp", .createDirAll "out", .createFile "out/x.html",
      .writeAll "out/x.html" "hi"] (by decide)

/-- C9: when `read_write` fails with `ReadInput` or `ParseInput`, the only
action performed was reading the input file: the output directory was not
created, the output file was neither created nor truncated, and applying
the trace to any filesystem leaves it unchanged. -/
theorem C9_no_output_effect_on_early_error (cfg : Config) (env : RwEnv)
    (r : Except ProgramError Unit) (acts : List FsAction)
    (h : read_write cfg env = (r, acts))
    (he : r = .error ProgramError.ParseInput ∨ ∃ e, r = .error (ProgramError.ReadInput e)) :
    acts = [.readToString cfg.input_file] ∧ ∀ fs : FsState, applyActions fs acts = fs := by
  have hacts : acts = [FsAction.readToString cfg.input_file] := by
    cases hr : env.readResult with
    | error e =>
      rw [read_write_read_err cfg env e hr] at h
      injection h with h1 h2
      exact h2.symm
    | ok input =>
      cases hp : parse input with
      | none =>
        rw [read_write_parse_none cfg env input hr hp] at h
        injection h with h1 h2
        exact h2.symm
      | some doc =>
        exfalso
        have hpp := read_write_parsed cfg env input doc hr hp
        have hr1 : (read_write cfg env).1 = r := by rw [h]
        rcases he with he | ⟨e, he⟩
        · exact hpp.1 (hr1.trans he)
        · exact hpp.2 e (hr1.trans he)
  subst hacts
  exact ⟨rfl, fun fs => rfl⟩

/-- Witness for C9 at a concrete failing read. -/
theorem C9_witness :
    [FsAction.readToString "in.htmlisp"] = [FsAction.readToString cfgShot.input_file] ∧
      ∀ fs : FsState, applyActions fs [FsAction.readToString "in.htmlisp"] = fs :=
  C9_no_output_effect_on_early_error cfgShot rwEnvReadErr
    (.error (ProgramError.ReadInput "boom")) [.readToString "in.htmlisp"]
    (by decide) (Or.inr ⟨"boom", rfl⟩)

/-- C6: in a single-shot (non-watch, non-help) invocation, any failure of
the run — including a parse failure — makes `main` print the error message
and exit with status 1, and a success makes it print the input-to-output
mapping without an error exit. -/
theorem C6_single_shot (cfg : Config) (env : MainEnv)
    (hh : cfg.help = false) (hw : cfg.watch = "") :
    (∀ e, (read_write cfg env.rwEnv).1 = .error e →
      mainOutcome (.ok cfg) env = .errorExit1 (ProgramError.display e)) ∧
    ((read_write cfg env.rwEnv).1 = .ok () →
      mainOutcome (.ok cfg) env = .success cfg.input_file cfg.output_file) := by
  rcases hrw : read_write cfg env.rwEnv with ⟨r, acts⟩
  constructor
  · intro e he
    have he' : r = .error e := he
    subst he'
    simp [mainOutcome, runOutcome, hh, hw, hrw]
  · intro hok
    have hok' : r = .ok () := hok
    subst hok'
    simp [mainOutcome, runOutcome, hh, hw, hrw]

/-- Witness for C6: a failing read exits 1 with its message; a successful
run prints the mapping. -/
theorem C6_witness :
    mainOutcome (.ok cfgShot) ⟨rwEnvReadErr, true, true, []⟩ =
      .errorExit1 (ProgramError.display (ProgramError.ReadInput "boom")) ∧
    mainOutcome (.ok cfgShot) ⟨rwEnvOk, true, true, []⟩ =
      .success cfgShot.input_file cfgShot.output_file :=
  ⟨(C6_single_shot cfgShot ⟨rwEnvReadErr, true, true, []⟩ rfl rfl).1
      (ProgramError.ReadInput "boom") (by decide),
   (C6_single_shot cfgShot ⟨rwEnvOk, true, true, []⟩ rfl rfl).2 (by decide)⟩

/-- C10: when the watch path is not a directory, `watch` returns the
`WatchDirIncorrect` error carrying that path — rendered as
`'path' is not a directory` — before any watcher is registered and with an
empty iteration trace, so no event is processed. -/
theorem C10_watch_dir_incorrect (cfg : Config) (watcherOk : Bool) (events : List EventEnv) :
    watchRun cfg false watcherOk events =
      (.returnedErr (ProgramError.WatchDirIncorrect cfg.watch), []) ∧
    (ProgramError.WatchDirIncorrect cfg.watch).display =
      "'" ++ cfg.watch ++ "' is not a directory" :=
  ⟨by simp [watchRun], rfl⟩

/-- C5: a write event is skipped — no canonicalization, no config rebuild,
no parse, render or output — exactly when the written file's extension is
not `htmlisp`; with the `htmlisp` extension the iteration is never the
do-nothing `skipped` outcome but proceeds to compilation. -/
theorem C5_extension_filter (cfg : Config) (env : EventEnv) (p : String)
    (h : env.recv = .ok (DebouncedEvent.write p)) :
    iterate cfg env = .skipped ↔ pathExtension p ≠ some "htmlisp" := by
  obtain ⟨recv, cwd, cwr, cres, renv⟩ := env
  simp only at h
  subst h
  by_cases hx : pathExtension p = some "htmlisp"
  · simp only [iterate, hx, ne_eq, not_true_eq_false, if_false, iff_false]
    intro hcontra
    repeat' split at hcontra
    all_goals simp_all
  · simp [iterate, hx]

/-- Witness for C5: a write event on `site/notes.txt` is skipped. -/
theorem C5_witness :
    iterate cfgWatch envWrongExt = .skipped :=
  (C5_extension_filter cfgWatch envWrongExt "site/notes.txt" rfl).mpr (by decide)

/-- C4: for a write event that is processed (extension `htmlisp`, both
canonicalizations succeed, the written path is inside the watch directory,
the config rebuild succeeds), the output path handed to `read_write` is
the written file's path relative to the watched directory, placed under
the output root `output/`, with the extension replaced by `html`. -/
theorem C4_output_path (cfg : Config) (env : EventEnv) (p wAbs fAbs rel : String)
    (cfg2 : Config)
    (h1 : env.recv = .ok (DebouncedEvent.write p))
    (h2 : pathExtension p = some "htmlisp")
    (h3 : env.canonWatchDir = .ok wAbs)
    (h4 : env.canonWritten = .ok fAbs)
    (h5 : pathRelativeTo fAbs wAbs = some rel)
    (h6 : env.configResult = .ok cfg2) :
    ∃ r acts rep,
      iterate cfg env =
        .compiled (setExtension (pathPush "output/" rel) "html") r acts rep ∧
      read_write (eventConfig cfg2 p (setExtension (pathPush "output/" rel) "html")) env.rw =
        (r, acts) := by
  obtain ⟨recv, cwd, cwr, cres, renv⟩ := env
  simp only at h1 h3 h4 h6 ⊢
  subst h1; subst h3; subst h4; subst h6
  simp only [iterate, h2, ne_eq, not_true_eq_false, if_false, h5]
  rcases hrw : read_write (eventConfig cfg2 p (setExtension (pathPush "output/" rel) "html"))
      renv with ⟨r, acts⟩
  rcases r with e | u
  · exact ⟨.error e, acts, .failure e rel, by simp [hrw], rfl⟩
  · exact ⟨.ok (), acts, .success rel (setExtension (pathPush "output/" rel) "html"),
      by simp [hrw], by cases u; rfl⟩

/-- Witness for C4: a write to `site/sub/a.htmlisp` in watch directory
`site` (canonicalized `/abs/site`) compiles to `output/sub/a.html`. -/
theorem C4_witness :
    ∃ r acts rep,
      iterate cfgWatch envGood =
        .compiled (setExtension (pathPush "output/" "sub/a.htmlisp") "html") r acts rep ∧
      read_write (eventConfig cfgWatch "site/sub/a.htmlisp"
          (setExtension (pathPush "output/" "sub/a.htmlisp") "html")) envGood.rw =
        (r, acts) :=
  C4_output_path cfgWatch envGood "site/sub/a.htmlisp" "/abs/site" "/abs/site/sub/a.htmlisp"
    "sub/a.htmlisp" cfgWatch rfl (by decide) rfl rfl (by decide) rfl

/-- Counterexample to C1 as stated: a single file's failure can terminate
the watch. For a write event on `site/sub/a.htmlisp` (extension passes the
filter) whose path fails to canonicalize — reported as the `ReadInput`
failure `Failed to read input file` — `watch` returns that error instead
of continuing: the following event is never processed (the trace stops at
this iteration) and `main` prints the error and exits with status 1. -/
theorem C1_counterexample :
    pathExtension "site/sub/a.htmlisp" = some "htmlisp" ∧
    watchRun cfgWatch true true [envBadCanon, envGood] =
      (.returnedErr (ProgramError.ReadInput "No such file or directory (os error 2)"),
       [.returnedErr (ProgramError.ReadInput "No such file or directory (os error 2)")]) ∧
    mainOutcome (.ok cfgWatch) ⟨rwEnvOk, true, true, [envBadCanon, envGood]⟩ =
      .errorExit1 ((ProgramError.ReadInput "No such file or directory (os error 2)").display) := by
  refine ⟨by decide, by decide, by decide⟩

/-- C1 (amended): for every write event whose processing reaches the
`read_write` call — the extension filter passes, both canonicalizations
succeed, the written path lies inside the watch directory and the config
rebuild succeeds — a failure of reading, parsing, or writing that file
inside `read_write` is reported for that file (the failure report carries
the error and the file's relative path) and the watch loop continues with
the remaining events; only a canonicalization failure (which `watch`
returns as a `ReadInput` error), a config rebuild or channel failure
(which exits the process), or a `strip_prefix` failure (which panics) can
end the loop. -/
theorem C1_amended_loop_continues (cfg : Config) (env : EventEnv) (rest : List EventEnv)
    (p wAbs fAbs rel : String) (cfg2 : Config) (e : ProgramError)
    (h1 : env.recv = .ok (DebouncedEvent.write p))
    (h2 : pathExtension p = some "htmlisp")
    (h3 : env.canonWatchDir = .ok wAbs)
    (h4 : env.canonWritten = .ok fAbs)
    (h5 : pathRelativeTo fAbs wAbs = some rel)
    (h6 : env.configResult = .ok cfg2)
    (h7 : (read_write (eventConfig cfg2 p (setExtension (pathPush "output/" rel) "html"))
        env.rw).1 = .error e) :
    iterate cfg env =
      .compiled (setExtension (pathPush "output/" rel) "html") (.error e)
        (read_write (eventConfig cfg2 p (setExtension (pathPush "output/" rel) "html"))
          env.rw).2
        (.failure e rel) ∧
    watchLoop cfg (env :: rest) =
      ((watchLoop cfg rest).1, iterate cfg env :: (watchLoop cfg rest).2) := by
  obtain ⟨recv, cwd, cwr, cres, renv⟩ := env
  simp only at h1 h3 h4 h6 h7 ⊢
  subst h1; subst h3; subst h4; subst h6
  rcases hrw : read_write (eventConfig cfg2 p (setExtension (pathPush "output/" rel) "html"))
      renv with ⟨r, acts⟩
  rw [hrw] at h7
  have h7' : r = .error e := h7
  subst h7'
  have hit : iterate cfg ⟨.ok (.write p), .ok wAbs, .ok fAbs, .ok cfg2, renv⟩ =
      .compiled (setExtension (pathPush "output/" rel) "html") (.error e) acts
        (.failure e rel) := by
    simp only [iterate, h2, ne_eq, not_true_eq_false, if_false, h5, hrw]
  refine ⟨by simp [hit, hrw], ?_⟩
  rw [hit]
  simp only [watchLoop, hit]

/-- Witness for the amended C1: a read failure inside `read_write` is
reported for `sub/a.htmlisp` and the loop goes on to the next event. -/
theorem C1_amended_witness :
    iterate cfgWatch envRwFail =
      .compiled (setExtension (pathPush "output/" "sub/a.htmlisp") "html")
        (.error (ProgramError.ReadInput "denied"))
        (read_write (eventConfig cfgWatch "site/sub/a.htmlisp"
            (setExtension (pathPush "output/" "sub/a.htmlisp") "html")) envRwFail.rw).2
        (.failure (ProgramError.ReadInput "denied") "sub/a.htmlisp") ∧
    watchLoop cfgWatch (envRwFail :: [envGood]) =
      ((watchLoop cfgWatch [envGood]).1,
        iterate cfgWatch envRwFail :: (watchLoop cfgWatch [envGood]).2) :=
  C1_amended_loop_continues cfgWatch envRwFail [envGood] "site/sub/a.htmlisp" "/abs/site"
    "/abs/site/sub/a.htmlisp" "sub/a.htmlisp" cfgWatch (ProgramError.ReadInput "denied")
    rfl (by decide) rfl rfl (by decide) rfl (by decide)

/-- C7: the five `ProgramError` variants render to pairwise distinct
messages (for all payloads): reading, parsing, creating and writing
failures and the bad-watch-directory error are all distinguishable, and
the parse-failure message is the constant `Failed to parse input file`
with no position or diagnostic detail. -/
theorem C7_distinct_messages :
    (∀ a b : ProgramError, a.ctorIdx ≠ b.ctorIdx → a.display ≠ b.display) ∧
    ProgramError.ParseInput.display = "Failed to parse input file" ∧
    (∀ e, (ProgramError.ReadInput e).display = "Failed to read input file\n(" ++ e ++ ")") ∧
    (∀ e, (ProgramError.CreateOutputFile e).display =
      "Failed to create output file\n(" ++ e ++ ")") ∧
    (∀ e, (ProgramError.WriteOutput e).display =
      "Failed to write to output file:\n(" ++ e ++ ")") := by
  have key : ∀ x y : ProgramError,
      x.display.data.take 15 ≠ y.display.data.take 15 → x.display ≠ y.display :=
    fun x y h hc => h (by rw [hc])
  refine ⟨?_, rfl, fun e => rfl, fun e => rfl, fun e => rfl⟩
  intro a b hab
  cases a <;> cases b <;> first
    | exact absurd rfl hab
    | (apply key; simp [ProgramError.display, String.data_append])

/-- Witness for C7: the parse-failure and read-failure messages differ. -/
theorem C7_witness :
    ProgramError.ParseInput.display ≠ (ProgramError.ReadInput "x").display :=
  C7_distinct_messages.1 ProgramError.ParseInput (ProgramError.ReadInput "x") (by decide)

end Htmlisp
